import Mathlib

/-!
Shallow embedding of the pafcheck alignment validator.

Source files embedded:
* `src/cigar_parser.rs` — `CigarOp`, `parse_cigar`
* `src/validator.rs` — `ErrorType`, `ErrorInfo`, `ValidationError`,
  `validate_record`, `reverse_complement`
* `src/paf_parser.rs` — `PafRecord`

Sequences are modelled as `List Char` (the Rust code compares the bytes of
ASCII-uppercased strings byte for byte; on the ASCII alphabet this coincides
with `Char` comparison after `Char.toUpper`).  The `HashMap<ErrorType,
ErrorInfo>` of the validator is modelled as a record with one `Option
ErrorInfo` field per `ErrorType` value, which is exactly the semantic content
of a hash map keyed by a three-value enum; its iteration order in the source
is unspecified, so only order-independent facts (presence, counts, number of
emitted lines) are meaningful, and `reportLines` below fixes one admissible
order.  The external FASTA fetches are passed in as `Except`-valued inputs,
mirroring the provider capability of the design.
-/

/-- `CigarOp` from `src/cigar_parser.rs`: `Match`/`Mismatch`/`Insertion`/`Deletion`,
each carrying the `u64` run length (modelled as `Nat`; the parser enforces the
`u64` bound). -/
inductive CigarOp where
  | Match (len : Nat)
  | Mismatch (len : Nat)
  | Insertion (len : Nat)
  | Deletion (len : Nat)
deriving DecidableEq

/-- The two failure sites of `parse_cigar`: `num.parse::<u64>()` failing
(`InvalidCount`: empty digit accumulator or overflow past `u64::MAX`) and the
`bail!("Unknown CIGAR operation")` branch. -/
inductive CigarError where
  | invalidCount
  | unknownOperator (c : Char)
deriving DecidableEq

/-- Decimal value of a digit accumulator, as `str::parse` computes it. -/
def digitsVal (num : List Char) : Nat :=
  num.foldl (fun acc c => acc * 10 + (c.toNat - '0'.toNat)) 0

/-- `num.parse::<u64>()`: fails on an empty accumulator or on overflow. -/
def parseCount (num : List Char) : Option Nat :=
  if num.isEmpty then none
  else if digitsVal num < 2 ^ 64 then some (digitsVal num) else none

/-- The scan loop of `parse_cigar` (`src/cigar_parser.rs` lines 15-29):
digits accumulate into `num`; any non-digit character consumes `num` as the
count and must be one of `=`, `X`, `I`, `D`; the final `Ok(ops)` returns the
operations accumulated so far, dropping any trailing unconsumed digits. -/
def parseCigarAux : List Char → List CigarOp → List Char → Except CigarError (List CigarOp)
  | [], ops, _ => .ok ops
  | c :: rest, ops, num =>
    if c.isDigit then
      parseCigarAux rest ops (num ++ [c])
    else
      match parseCount num with
      | none => .error .invalidCount
      | some count =>
        if c = '=' then parseCigarAux rest (ops ++ [CigarOp.Match count]) []
        else if c = 'X' then parseCigarAux rest (ops ++ [CigarOp.Mismatch count]) []
        else if c = 'I' then parseCigarAux rest (ops ++ [CigarOp.Insertion count]) []
        else if c = 'D' then parseCigarAux rest (ops ++ [CigarOp.Deletion count]) []
        else .error (.unknownOperator c)

/-- `parse_cigar` from `src/cigar_parser.rs`. -/
def parse_cigar (cigar : String) : Except CigarError (List CigarOp) :=
  parseCigarAux cigar.data [] []

/-- `ErrorType` from `src/validator.rs`. -/
inductive ErrorType where
  | Mismatch
  | LengthMismatch
  | CigarMismatch
deriving DecidableEq

/-- `ErrorInfo` from `src/validator.rs`: the first message seen for an error
type plus a running occurrence count. -/
structure ErrorInfo where
  first_message : String
  count : Nat
deriving DecidableEq

/-- The `HashMap<ErrorType, ErrorInfo>` of `validate_record`, one optional
entry per error type. -/
structure ErrMap where
  mismatch : Option ErrorInfo
  lengthMismatch : Option ErrorInfo
  cigarMismatch : Option ErrorInfo
deriving DecidableEq

def ErrMap.empty : ErrMap := ⟨none, none, none⟩

/-- `entry(t).and_modify(|e| e.count += 1).or_insert(ErrorInfo{msg, 1})`. -/
def bumpEntry (msg : String) : Option ErrorInfo → Option ErrorInfo
  | none => some ⟨msg, 1⟩
  | some e => some ⟨e.first_message, e.count + 1⟩

def ErrMap.insert (m : ErrMap) (t : ErrorType) (msg : String) : ErrMap :=
  match t with
  | .Mismatch => { m with mismatch := bumpEntry msg m.mismatch }
  | .LengthMismatch => { m with lengthMismatch := bumpEntry msg m.lengthMismatch }
  | .CigarMismatch => { m with cigarMismatch := bumpEntry msg m.cigarMismatch }

/-- `HashMap::is_empty`. -/
def ErrMap.isEmpty (m : ErrMap) : Bool :=
  m.mismatch.isNone && m.lengthMismatch.isNone && m.cigarMismatch.isNone

/-- `PafRecord` from `src/paf_parser.rs`. -/
structure PafRecord where
  query_name : String
  query_length : Nat
  query_start : Nat
  query_end : Nat
  strand : Char
  target_name : String
  target_length : Nat
  target_start : Nat
  target_end : Nat
  cigar : String
deriving DecidableEq

/-- `reverse_complement`'s per-base mapping (`src/validator.rs` lines 183-190):
A/T and C/G swap case-insensitively; everything else, N included, maps to N. -/
def complement (base : Char) : Char :=
  if base = 'A' ∨ base = 'a' then 'T'
  else if base = 'T' ∨ base = 't' then 'A'
  else if base = 'G' ∨ base = 'g' then 'C'
  else if base = 'C' ∨ base = 'c' then 'G'
  else if base = 'N' ∨ base = 'n' then 'N'
  else 'N'

/-- `reverse_complement` from `src/validator.rs`: reverse, then complement. -/
def reverse_complement (seq : List Char) : List Char :=
  seq.reverse.map complement

/-- The error message built at `src/validator.rs` lines 102-105. -/
def mismatchMsg (opIdx : Nat) (q : Char) (qPos : Nat) (t : Char) (tPos : Nat) : String :=
  "CIGAR mismatch at operation " ++ toString opIdx ++ ": query char \x27" ++ toString q
    ++ "\x27 at pos " ++ toString qPos ++ " vs target char \x27" ++ toString t
    ++ "\x27 at pos " ++ toString tPos

/-- One iteration of the `for i in 0..len` comparison loop of
`validate_record` (`src/validator.rs` lines 89-115). -/
def compareStep (expectedMatch : Bool) (opIdx qStart tStart qIdx tIdx : Nat)
    (qs ts : List Char) (acc : ErrMap) (i : Nat) : ErrMap :=
  let q := qs.getD (qIdx + i) 'A'
  let t := ts.getD (tIdx + i) 'A'
  if (q == t) = expectedMatch then acc
  else
    let et := if expectedMatch then ErrorType.Mismatch else ErrorType.CigarMismatch
    acc.insert et (mismatchMsg opIdx q (qStart + qIdx + i) t (tStart + tIdx + i))

/-- The whole comparison loop for one `Match`/`Mismatch` operation. -/
def compareRun (expectedMatch : Bool) (opIdx qStart tStart qIdx tIdx : Nat)
    (qs ts : List Char) (errs : ErrMap) (len : Nat) : ErrMap :=
  (List.range len).foldl (compareStep expectedMatch opIdx qStart tStart qIdx tIdx qs ts) errs

/-- The two `anyhow!("... index out of range")` hard failures of the walk. -/
inductive WalkError where
  | queryRange
  | targetRange
deriving DecidableEq

/-- The CIGAR-consuming loop of `validate_record` (`src/validator.rs` lines
78-126): cursors advance by the run length; `Match`/`Mismatch` first slice
both windows (failing hard when out of range, query side checked first) and
then compare byte by byte; `Insertion`/`Deletion` only advance one cursor. -/
def walk (qStart tStart : Nat) (qs ts : List Char) :
    List CigarOp → Nat → Nat → Nat → ErrMap → Except WalkError (Nat × Nat × ErrMap)
  | [], _, qIdx, tIdx, errs => .ok (qIdx, tIdx, errs)
  | CigarOp.Match len :: rest, opIdx, qIdx, tIdx, errs =>
    if qIdx + len ≤ qs.length then
      if tIdx + len ≤ ts.length then
        walk qStart tStart qs ts rest (opIdx + 1) (qIdx + len) (tIdx + len)
          (compareRun true opIdx qStart tStart qIdx tIdx qs ts errs len)
      else .error .targetRange
    else .error .queryRange
  | CigarOp.Mismatch len :: rest, opIdx, qIdx, tIdx, errs =>
    if qIdx + len ≤ qs.length then
      if tIdx + len ≤ ts.length then
        walk qStart tStart qs ts rest (opIdx + 1) (qIdx + len) (tIdx + len)
          (compareRun false opIdx qStart tStart qIdx tIdx qs ts errs len)
      else .error .targetRange
    else .error .queryRange
  | CigarOp.Insertion len :: rest, opIdx, qIdx, tIdx, errs =>
    walk qStart tStart qs ts rest (opIdx + 1) (qIdx + len) tIdx errs
  | CigarOp.Deletion len :: rest, opIdx, qIdx, tIdx, errs =>
    walk qStart tStart qs ts rest (opIdx + 1) qIdx (tIdx + len) errs

/-- Message of `src/validator.rs` lines 130-134. -/
def queryLenMsg (qIdx actual : Nat) : String :=
  "Query sequence length mismatch: CIGAR implies " ++ toString qIdx
    ++ ", actual length " ++ toString actual

/-- Message of `src/validator.rs` lines 145-149. -/
def targetLenMsg (tIdx actual : Nat) : String :=
  "Target sequence length mismatch: CIGAR implies " ++ toString tIdx
    ++ ", actual length " ++ toString actual

/-- The query-side post-walk length check (`src/validator.rs` lines 128-142). -/
def queryLenCheck (qs : List Char) (qIdx : Nat) (errs : ErrMap) : ErrMap :=
  if qIdx ≠ qs.length then errs.insert .LengthMismatch (queryLenMsg qIdx qs.length) else errs

/-- The target-side post-walk length check (`src/validator.rs` lines 143-157). -/
def targetLenCheck (ts : List Char) (tIdx : Nat) (errs : ErrMap) : ErrMap :=
  if tIdx ≠ ts.length then errs.insert .LengthMismatch (targetLenMsg tIdx ts.length) else errs

/-- The post-walk length checks (`src/validator.rs` lines 128-157), query side
first, each inserting a `LengthMismatch` entry when its cursor missed the
window length. -/
def lengthChecks (qs ts : List Char) (qIdx tIdx : Nat) (errs : ErrMap) : ErrMap :=
  targetLenCheck ts tIdx (queryLenCheck qs qIdx errs)

/-- Strand normalisation plus uppercasing of the query window
(`src/validator.rs` lines 63-69). -/
def normalizeQuery (record : PafRecord) (qraw : List Char) : List Char :=
  (if record.strand = '-' then reverse_complement qraw else qraw).map Char.toUpper

/-- Record-level failure values of `validate_record`: fetch failures, CIGAR
grammar failures, out-of-range hard failures during the walk, and the
`ValidationError { errors }` value returned in non-report modes. -/
inductive VError where
  | fetchQuery (msg : String)
  | fetchTarget (msg : String)
  | grammar (e : CigarError)
  | range (e : WalkError)
  | validation (errs : ErrMap)
deriving DecidableEq

/-- Fetch, normalise, parse and walk one record, returning the accumulated
error map (`src/validator.rs` lines 50-157, everything before the reporting
branch). -/
def validate_errors (record : PafRecord) (qraw traw : List Char) : Except VError ErrMap :=
  let qs := normalizeQuery record qraw
  let ts := traw.map Char.toUpper
  match parse_cigar record.cigar with
  | .error e => .error (.grammar e)
  | .ok ops =>
    match walk record.query_start record.target_start qs ts ops 0 0 0 ErrMap.empty with
    | .error we => .error (.range we)
    | .ok (qIdx, tIdx, errs) => .ok (lengthChecks qs ts qIdx tIdx errs)

/-- The lines `writeln!`-emitted for one map entry in report mode: the first
message, then a `Total occurrences` line when the count exceeds one
(`src/validator.rs` lines 161-170). -/
def entryLines (name : String) : Option ErrorInfo → List String
  | none => []
  | some info =>
    (name ++ ": " ++ info.first_message)
      :: (if info.count > 1 then [name ++ ": Total occurrences: " ++ toString info.count] else [])

/-- All lines written in report mode.  The source iterates the `HashMap` in
unspecified order; this definition fixes one admissible order, and only
order-independent consequences (such as the number of lines) are stated. -/
def reportLines (m : ErrMap) : List String :=
  entryLines "Mismatch" m.mismatch ++ entryLines "LengthMismatch" m.lengthMismatch
    ++ entryLines "CigarMismatch" m.cigarMismatch

/-- `validate_record` from `src/validator.rs`: the fetch results come in as
`Except`-valued inputs (the FASTA provider is external); the first component
of the result is the list of lines written to the output sink, the second the
Rust `Result`. -/
def validate_record (record : PafRecord) (fetchQ fetchT : Except String (List Char))
    (error_mode : String) : List String × Except VError Unit :=
  match fetchQ with
  | .error msg => ([], .error (.fetchQuery msg))
  | .ok qraw =>
    match fetchT with
    | .error msg => ([], .error (.fetchTarget msg))
    | .ok traw =>
      match validate_errors record qraw traw with
      | .error e => ([], .error e)
      | .ok errs =>
        if errs.isEmpty then ([], .ok ())
        else if error_mode = "report" then (reportLines errs, .ok ())
        else ([], .error (.validation errs))

/-- Total query span of an operation list: run lengths of `Match`, `Mismatch`
and `Insertion` operations. -/
def queryConsumed : List CigarOp → Nat
  | [] => 0
  | CigarOp.Match n :: r => n + queryConsumed r
  | CigarOp.Mismatch n :: r => n + queryConsumed r
  | CigarOp.Insertion n :: r => n + queryConsumed r
  | CigarOp.Deletion _ :: r => queryConsumed r

/-- Total target span of an operation list: run lengths of `Match`, `Mismatch`
and `Deletion` operations. -/
def targetConsumed : List CigarOp → Nat
  | [] => 0
  | CigarOp.Match n :: r => n + targetConsumed r
  | CigarOp.Mismatch n :: r => n + targetConsumed r
  | CigarOp.Insertion _ :: r => targetConsumed r
  | CigarOp.Deletion n :: r => n + targetConsumed r

/-- Number of map entries, i.e. of distinct error types present. -/
def numEntries (m : ErrMap) : Nat :=
  (if m.mismatch.isSome then 1 else 0) + (if m.lengthMismatch.isSome then 1 else 0)
    + (if m.cigarMismatch.isSome then 1 else 0)

/-- Number of entries whose occurrence count exceeds one (each contributes an
extra `Total occurrences` line in report mode). -/
def entryMulti : Option ErrorInfo → Nat
  | none => 0
  | some info => if info.count > 1 then 1 else 0

def numMulti (m : ErrMap) : Nat :=
  entryMulti m.mismatch + entryMulti m.lengthMismatch + entryMulti m.cigarMismatch

/-! ### Helper lemmas -/

lemma compareStep_lengthMismatch (em : Bool) (oi q0 t0 qi ti : Nat) (qs ts : List Char)
    (acc : ErrMap) (i : Nat) :
    (compareStep em oi q0 t0 qi ti qs ts acc i).lengthMismatch = acc.lengthMismatch := by
  simp only [compareStep]
  split
  · rfl
  · cases em <;> rfl

lemma foldl_compareStep_lengthMismatch (em : Bool) (oi q0 t0 qi ti : Nat) (qs ts : List Char) :
    ∀ (l : List Nat) (acc : ErrMap),
      (l.foldl (compareStep em oi q0 t0 qi ti qs ts) acc).lengthMismatch = acc.lengthMismatch
  | [], _ => rfl
  | i :: l, acc => by
    rw [List.foldl_cons, foldl_compareStep_lengthMismatch em oi q0 t0 qi ti qs ts l,
      compareStep_lengthMismatch]

lemma compareRun_lengthMismatch (em : Bool) (oi q0 t0 qi ti : Nat) (qs ts : List Char)
    (errs : ErrMap) (len : Nat) :
    (compareRun em oi q0 t0 qi ti qs ts errs len).lengthMismatch = errs.lengthMismatch :=
  foldl_compareStep_lengthMismatch em oi q0 t0 qi ti qs ts (List.range len) errs

lemma walk_ok (qStart tStart : Nat) (qs ts : List Char) :
    ∀ (ops : List CigarOp) (opIdx qIdx tIdx : Nat) (errs : ErrMap) (q t : Nat) (e : ErrMap),
      walk qStart tStart qs ts ops opIdx qIdx tIdx errs = .ok (q, t, e) →
      q = qIdx + queryConsumed ops ∧ t = tIdx + targetConsumed ops ∧
        e.lengthMismatch = errs.lengthMismatch := by
  intro ops
  induction ops with
  | nil =>
    intro opIdx qIdx tIdx errs q t e h
    simp only [walk, Except.ok.injEq, Prod.mk.injEq] at h
    obtain ⟨h1, h2, h3⟩ := h
    subst h1; subst h2; subst h3
    simp [queryConsumed, targetConsumed]
  | cons op rest ih =>
    intro opIdx qIdx tIdx errs q t e h
    cases op with
    | Match n =>
      simp only [walk] at h
      split at h
      · split at h
        · obtain ⟨h1, h2, h3⟩ := ih _ _ _ _ _ _ _ h
          rw [compareRun_lengthMismatch] at h3
          refine ⟨?_, ?_, h3⟩ <;> simp only [queryConsumed, targetConsumed] <;> omega
        · exact absurd h (by simp)
      · exact absurd h (by simp)
    | Mismatch n =>
      simp only [walk] at h
      split at h
      · split at h
        · obtain ⟨h1, h2, h3⟩ := ih _ _ _ _ _ _ _ h
          rw [compareRun_lengthMismatch] at h3
          refine ⟨?_, ?_, h3⟩ <;> simp only [queryConsumed, targetConsumed] <;> omega
        · exact absurd h (by simp)
      · exact absurd h (by simp)
    | Insertion n =>
      simp only [walk] at h
      obtain ⟨h1, h2, h3⟩ := ih _ _ _ _ _ _ _ h
      refine ⟨?_, ?_, h3⟩ <;> simp only [queryConsumed, targetConsumed] <;> omega
    | Deletion n =>
      simp only [walk] at h
      obtain ⟨h1, h2, h3⟩ := ih _ _ _ _ _ _ _ h
      refine ⟨?_, ?_, h3⟩ <;> simp only [queryConsumed, targetConsumed] <;> omega

lemma insert_lengthMismatch_isSome (m : ErrMap) (msg : String) :
    (m.insert .LengthMismatch msg).lengthMismatch.isSome = true := by
  cases h : m.lengthMismatch <;> simp [ErrMap.insert, bumpEntry, h]

lemma targetLenCheck_none (ts : List Char) (tIdx : Nat) (e : ErrMap)
    (h : (targetLenCheck ts tIdx e).lengthMismatch = none) :
    tIdx = ts.length ∧ e.lengthMismatch = none := by
  unfold targetLenCheck at h
  split at h
  · have hs := insert_lengthMismatch_isSome e (targetLenMsg tIdx ts.length)
    rw [h] at hs
    simp at hs
  · rename_i h2
    exact ⟨not_not.mp h2, h⟩

lemma queryLenCheck_none (qs : List Char) (qIdx : Nat) (e : ErrMap)
    (h : (queryLenCheck qs qIdx e).lengthMismatch = none) :
    qIdx = qs.length ∧ e.lengthMismatch = none := by
  unfold queryLenCheck at h
  split at h
  · have hs := insert_lengthMismatch_isSome e (queryLenMsg qIdx qs.length)
    rw [h] at hs
    simp at hs
  · rename_i h2
    exact ⟨not_not.mp h2, h⟩

lemma normalizeQuery_length (record : PafRecord) (qraw : List Char) :
    (normalizeQuery record qraw).length = qraw.length := by
  unfold normalizeQuery reverse_complement
  split <;> simp

lemma parseCigarAux_all_digits :
    ∀ (d : List Char) (ops : List CigarOp) (num : List Char),
      (∀ c ∈ d, c.isDigit = true) → parseCigarAux d ops num = .ok ops
  | [], _, _, _ => rfl
  | c :: d, ops, num, h => by
    simp only [parseCigarAux]
    rw [if_pos (h c (List.mem_cons_self c d))]
    exact parseCigarAux_all_digits d ops (num ++ [c]) fun x hx => h x (List.mem_cons_of_mem c hx)


lemma parseCigarAux_append_digits (d : List Char) (hd : ∀ c ∈ d, c.isDigit = true) :
    ∀ (s : List Char) (ops : List CigarOp) (num : List Char),
      parseCigarAux (s ++ d) ops num = parseCigarAux s ops num := by
  intro s
  induction s with
  | nil =>
    intro ops num
    simp only [List.nil_append, parseCigarAux]
    exact parseCigarAux_all_digits d ops num hd
  | cons c s ih =>
    intro ops num
    simp only [List.cons_append, parseCigarAux]
    split
    · exact ih ops (num ++ [c])
    · split
      · rfl
      · split
        · exact ih _ []
        · split
          · exact ih _ []
          · split
            · exact ih _ []
            · split
              · exact ih _ []
              · rfl

lemma parseCigarAux_bad_letter :
    ∀ (u : List Char) (c : Char) (v : List Char) (ops res : List CigarOp) (num : List Char),
      c.isDigit = false → c ∉ ['=', 'X', 'I', 'D'] →
      parseCigarAux (u ++ c :: v) ops num ≠ .ok res := by
  intro u
  induction u with
  | nil =>
    intro c v ops res num hc hbad
    simp only [List.mem_cons, List.not_mem_nil, or_false, not_or] at hbad
    obtain ⟨h1, h2, h3, h4⟩ := hbad
    simp only [List.nil_append, parseCigarAux]
    rw [if_neg (by simp [hc])]
    split
    · intro h; exact Except.noConfusion h
    · rw [if_neg h1, if_neg h2, if_neg h3, if_neg h4]
      intro h; exact Except.noConfusion h
  | cons a u ih =>
    intro c v ops res num hc hbad
    simp only [List.cons_append, parseCigarAux]
    split
    · exact ih c v ops res (num ++ [a]) hc hbad
    · split
      · intro h; exact Except.noConfusion h
      · split
        · exact ih c v _ res [] hc hbad
        · split
          · exact ih c v _ res [] hc hbad
          · split
            · exact ih c v _ res [] hc hbad
            · split
              · exact ih c v _ res [] hc hbad
              · intro h; exact Except.noConfusion h

lemma getLast?_tail (a : Char) (u : List Char)
    (hlast : ∀ d, (a :: u).getLast? = some d → d.isDigit = false) :
    ∀ d, u.getLast? = some d → d.isDigit = false := by
  intro d hd
  apply hlast
  cases u with
  | nil => simp at hd
  | cons b u => rw [List.getLast?_cons_cons]; exact hd

lemma parseCigarAux_no_digits :
    ∀ (u : List Char) (c : Char) (v : List Char) (ops res : List CigarOp) (num : List Char),
      c.isDigit = false →
      (∀ d, u.getLast? = some d → d.isDigit = false) →
      (u = [] → num = []) →
      parseCigarAux (u ++ c :: v) ops num ≠ .ok res := by
  intro u
  induction u with
  | nil =>
    intro c v ops res num hc _ hnum
    rw [hnum rfl]
    simp only [List.nil_append, parseCigarAux]
    rw [if_neg (by simp [hc])]
    intro h
    exact Except.noConfusion h
  | cons a u ih =>
    intro c v ops res num hc hlast _
    simp only [List.cons_append, parseCigarAux]
    split
    · rename_i ha
      cases hu : u with
      | nil =>
        subst hu
        have hdig : a.isDigit = false := hlast a rfl
        rw [ha] at hdig
        exact absurd hdig (by simp)
      | cons b u2 =>
        subst hu
        exact ih c v ops res (num ++ [a]) hc (getLast?_tail a _ hlast) (by simp)
    · have hlast2 := getLast?_tail a u hlast
      split
      · intro h; exact Except.noConfusion h
      · split
        · exact ih c v _ res [] hc hlast2 fun _ => rfl
        · split
          · exact ih c v _ res [] hc hlast2 fun _ => rfl
          · split
            · exact ih c v _ res [] hc hlast2 fun _ => rfl
            · split
              · exact ih c v _ res [] hc hlast2 fun _ => rfl
              · intro h; exact Except.noConfusion h

lemma entryLines_length (name : String) (o : Option ErrorInfo) :
    (entryLines name o).length = (if o.isSome then 1 else 0) + entryMulti o := by
  cases o with
  | none => rfl
  | some info =>
    simp only [entryLines, entryMulti, Option.isSome_some, if_true, List.length_cons]
    split <;> simp

lemma reportLines_length (m : ErrMap) :
    (reportLines m).length = numEntries m + numMulti m := by
  simp only [reportLines, List.length_append, entryLines_length, numEntries, numMulti]
  omega

lemma isEmpty_counts (m : ErrMap) (h : m.isEmpty = true) : numEntries m + numMulti m = 0 := by
  obtain ⟨a, b, c⟩ := m
  simp only [ErrMap.isEmpty, Bool.and_eq_true, Option.isNone_iff_eq_none] at h
  obtain ⟨⟨h1, h2⟩, h3⟩ := h
  subst h1; subst h2; subst h3
  rfl

/-! ### Claim theorems -/

/-- C9: parsing the empty operator string succeeds and yields the empty
operation sequence. -/
theorem parse_empty_ok : parse_cigar "" = .ok [] := rfl

/-- C5 counterexample: the claim says every parsed operation has run length
strictly greater than 0, but the parser accepts "0=" and returns a run of
length 0. -/
theorem zero_run_cex : parse_cigar "0=" = .ok [CigarOp.Match 0] ∧ ¬ (0 < 0) :=
  ⟨rfl, by decide⟩

/-- C5 (amended): parsed run lengths may be zero — the grammar accepts a zero
count for every one of the four operators, yielding zero-length runs. -/
theorem zero_runs_accepted :
    parse_cigar "0=0X0I0D"
      = .ok [CigarOp.Match 0, CigarOp.Mismatch 0, CigarOp.Insertion 0, CigarOp.Deletion 0] := rfl

/-- C8: the walker is deterministic — it is a pure function of the operation
list, the two normalized windows and its initial cursors/error state (the
source keeps all walk state in function-local variables, so the embedding is a
pure function), hence two runs on the same inputs produce the same cursor pair
and error map. -/
theorem walk_deterministic (qStart tStart : Nat) (qs ts : List Char) (ops : List CigarOp) :
    walk qStart tStart qs ts ops 0 0 0 ErrMap.empty
      = walk qStart tStart qs ts ops 0 0 0 ErrMap.empty := rfl

/-- C10: an input ending in trailing digits with no operator letter parses to
exactly what its digit-letter-complete prefix parses to — the trailing count
is silently discarded and no error is raised. -/
theorem trailing_digits_discarded (s d : List Char) (ops : List CigarOp)
    (_hne : d ≠ []) (hd : ∀ c ∈ d, c.isDigit = true)
    (hs : parse_cigar (String.mk s) = .ok ops) :
    parse_cigar (String.mk (s ++ d)) = .ok ops := by
  show parseCigarAux (s ++ d) [] [] = .ok ops
  rw [parseCigarAux_append_digits d hd s [] []]
  exact hs

/-- Witness for C10 at the concrete input "5=3". -/
theorem trailing_digits_discarded_w :
    parse_cigar (String.mk ['5', '=', '3']) = .ok [CigarOp.Match 5] :=
  trailing_digits_discarded ['5', '='] ['3'] [CigarOp.Match 5] (by decide) (by decide) rfl

/-- C6: the parser rejects every input in which some position holds a
non-digit character outside the four operator letters, and every input in
which a non-digit character is not immediately preceded by a digit (an
operator letter with no preceding count); it never returns an operation
sequence for such inputs. -/
theorem parse_rejects_bad (u : List Char) (c : Char) (v : List Char) (res : List CigarOp)
    (hc : c.isDigit = false)
    (hbad : c ∉ ['=', 'X', 'I', 'D'] ∨ ∀ d, u.getLast? = some d → d.isDigit = false) :
    parse_cigar (String.mk (u ++ c :: v)) ≠ .ok res := by
  show parseCigarAux (u ++ c :: v) [] [] ≠ .ok res
  rcases hbad with hbad | hbad
  · exact parseCigarAux_bad_letter u c v [] res [] hc hbad
  · exact parseCigarAux_no_digits u c v [] res [] hc hbad fun _ => rfl

/-- Witness for C6: "5M" (unknown operator letter) and "=" (operator with no
preceding digits) are both rejected. -/
theorem parse_rejects_bad_w :
    ('M'.isDigit = false) ∧ parse_cigar (String.mk ['5', 'M']) ≠ .ok []
      ∧ parse_cigar (String.mk ['=']) ≠ .ok [] := by
  refine ⟨by decide, ?_, ?_⟩
  · exact parse_rejects_bad ['5'] 'M' [] [] (by decide) (Or.inl (by decide))
  · exact parse_rejects_bad [] '=' [] [] (by decide) (Or.inr fun d hd => by simp at hd)

lemma complement_complement_upper (c : Char)
    (h : c ∈ ['A', 'C', 'G', 'T', 'N', 'a', 'c', 'g', 't', 'n']) :
    complement (complement c) = c.toUpper := by
  fin_cases h <;> decide

/-- C7 counterexample: the claim says a double reverse-complement reproduces
the case-normalized window for every window, but an ambiguity code such as R
is collapsed to N by the first pass. -/
theorem revcomp_cex :
    reverse_complement (reverse_complement ['R']) = ['N']
      ∧ reverse_complement (reverse_complement ['R']) ≠ ['R'].map Char.toUpper :=
  ⟨by decide, by decide⟩

/-- C7 (amended): for every window whose characters all lie in
{A,C,G,T,N} case-insensitively, reverse-complementing twice reproduces the
uppercased original window. -/
theorem revcomp_involutive_on_dna (s : List Char)
    (h : ∀ c ∈ s, c ∈ ['A', 'C', 'G', 'T', 'N', 'a', 'c', 'g', 't', 'n']) :
    reverse_complement (reverse_complement s) = s.map Char.toUpper := by
  simp only [reverse_complement, List.map_reverse, List.reverse_reverse, List.map_map]
  exact List.map_congr_left fun c hc => complement_complement_upper c (h c hc)

/-- Witness for C7's amended statement at the concrete window "aCgTn". -/
theorem revcomp_involutive_on_dna_w :
    reverse_complement (reverse_complement ['a', 'C', 'g', 'T', 'n'])
      = ['a', 'C', 'g', 'T', 'n'].map Char.toUpper :=
  revcomp_involutive_on_dna ['a', 'C', 'g', 'T', 'n'] (by decide)

/-- C4: a `Match`/`Mismatch` run that would overrun either window makes the
walk fail immediately with a hard range error (query side checked first), and
any such hard failure makes `validate_record` fail for the whole record with
that error and an empty output sink, whatever the reporting mode — it is never
turned into a recoverable `ValidationError` entry. -/
theorem bounds_violation_hard :
    (∀ qStart tStart (qs ts : List Char) n (rest : List CigarOp) opIdx qIdx tIdx errs,
       qs.length < qIdx + n →
         walk qStart tStart qs ts (CigarOp.Match n :: rest) opIdx qIdx tIdx errs
             = .error .queryRange ∧
           walk qStart tStart qs ts (CigarOp.Mismatch n :: rest) opIdx qIdx tIdx errs
             = .error .queryRange) ∧
    (∀ qStart tStart (qs ts : List Char) n (rest : List CigarOp) opIdx qIdx tIdx errs,
       qIdx + n ≤ qs.length → ts.length < tIdx + n →
         walk qStart tStart qs ts (CigarOp.Match n :: rest) opIdx qIdx tIdx errs
             = .error .targetRange ∧
           walk qStart tStart qs ts (CigarOp.Mismatch n :: rest) opIdx qIdx tIdx errs
             = .error .targetRange) ∧
    (∀ (record : PafRecord) (qraw traw : List Char) (mode : String) (e : VError),
       validate_errors record qraw traw = .error e →
         validate_record record (.ok qraw) (.ok traw) mode = ([], .error e)) := by
  refine ⟨?_, ?_, ?_⟩
  · intro qStart tStart qs ts n rest opIdx qIdx tIdx errs h
    constructor <;> (simp only [walk]; rw [if_neg (by omega)])
  · intro qStart tStart qs ts n rest opIdx qIdx tIdx errs h1 h2
    constructor <;> (simp only [walk]; rw [if_pos h1, if_neg (by omega)])
  · intro record qraw traw mode e h
    simp only [validate_record]
    rw [h]

/-- Witness for C4: a two-base Match over a one-base query window fails at the
walk and at the record level, in omit mode. -/
theorem bounds_violation_hard_w :
    walk 0 0 ['A'] ['A'] [CigarOp.Match 2] 0 0 0 ErrMap.empty = .error .queryRange ∧
      validate_record ⟨"q", 1, 0, 1, '+', "t", 1, 0, 1, "2="⟩ (.ok ['A']) (.ok ['A']) "omit"
        = ([], .error (.range .queryRange)) :=
  ⟨(bounds_violation_hard.1 0 0 ['A'] ['A'] 2 [] 0 0 0 ErrMap.empty (by decide)).1,
    bounds_violation_hard.2.2 ⟨"q", 1, 0, 1, '+', "t", 1, 0, 1, "2="⟩ ['A'] ['A'] "omit"
      (.range .queryRange) rfl⟩

/-- C1 counterexample: the record ("3=", query AAA vs target TTT) has three
findable disagreements — the accumulated Mismatch entry carries count 3 — yet
report mode writes exactly two lines (the first message and one total line),
not three, while still returning success. -/
theorem report_merges_lines_cex :
    validate_errors ⟨"q", 3, 0, 3, '+', "t", 3, 0, 3, "3="⟩ ['A', 'A', 'A'] ['T', 'T', 'T']
        = .ok ⟨some ⟨"CIGAR mismatch at operation 0: query char \x27A\x27 at pos 0 vs target char \x27T\x27 at pos 0", 3⟩, none, none⟩ ∧
      (validate_record ⟨"q", 3, 0, 3, '+', "t", 3, 0, 3, "3="⟩ (.ok ['A', 'A', 'A'])
          (.ok ['T', 'T', 'T']) "report").1.length = 2 ∧
      (validate_record ⟨"q", 3, 0, 3, '+', "t", 3, 0, 3, "3="⟩ (.ok ['A', 'A', 'A'])
          (.ok ['T', 'T', 'T']) "report").2 = .ok () ∧
      (2 : Nat) ≠ 3 :=
  ⟨rfl, rfl, rfl, by decide⟩

lemma validate_record_ok (record : PafRecord) (qraw traw : List Char) (mode : String)
    (errs : ErrMap) (hval : validate_errors record qraw traw = .ok errs) :
    validate_record record (.ok qraw) (.ok traw) mode
      = if errs.isEmpty then ([], .ok ())
        else if mode = "report" then (reportLines errs, .ok ())
        else ([], .error (.validation errs)) := by
  simp only [validate_record]
  rw [hval]

/-- C1 (amended): in report mode the call always returns success, but errors
are merged per error type: the sink receives one line per distinct error type
present plus one extra "Total occurrences" line for each type whose count
exceeds one — not one line per disagreeing position. -/
theorem report_mode_lines (record : PafRecord) (qraw traw : List Char) (errs : ErrMap)
    (hval : validate_errors record qraw traw = .ok errs) :
    (validate_record record (.ok qraw) (.ok traw) "report").2 = .ok () ∧
      (validate_record record (.ok qraw) (.ok traw) "report").1.length
        = numEntries errs + numMulti errs := by
  rw [validate_record_ok record qraw traw "report" errs hval]
  by_cases he : errs.isEmpty
  · rw [if_pos he]
    exact ⟨rfl, (isEmpty_counts errs he).symm⟩
  · rw [if_neg he, if_pos rfl]
    exact ⟨rfl, reportLines_length errs⟩

/-- Witness for C1's amended statement: the "3=" AAA/TTT record yields one
Mismatch entry with count 3, hence 1 + 1 = 2 lines and a success result. -/
theorem report_mode_lines_w :
    (validate_record ⟨"q", 3, 0, 3, '+', "t", 3, 0, 3, "3="⟩ (.ok ['A', 'A', 'A'])
        (.ok ['T', 'T', 'T']) "report").2 = .ok () ∧
      (validate_record ⟨"q", 3, 0, 3, '+', "t", 3, 0, 3, "3="⟩ (.ok ['A', 'A', 'A'])
        (.ok ['T', 'T', 'T']) "report").1.length = 2 :=
  report_mode_lines ⟨"q", 3, 0, 3, '+', "t", 3, 0, 3, "3="⟩ ['A', 'A', 'A'] ['T', 'T', 'T']
    ⟨some ⟨"CIGAR mismatch at operation 0: query char \x27A\x27 at pos 0 vs target char \x27T\x27 at pos 0", 3⟩, none, none⟩ rfl

/-- C2 counterexample: on the same failing record, omit mode writes nothing at
all to the sink (report mode would write two lines), so the claim that the
same lines are written first is false; the call does fail. -/
theorem omit_mode_cex :
    (validate_record ⟨"q", 3, 0, 3, '+', "t", 3, 0, 3, "3="⟩ (.ok ['A', 'A', 'A'])
        (.ok ['T', 'T', 'T']) "omit").1 = [] ∧
      (validate_record ⟨"q", 3, 0, 3, '+', "t", 3, 0, 3, "3="⟩ (.ok ['A', 'A', 'A'])
        (.ok ['T', 'T', 'T']) "report").1.length = 2 ∧
      (validate_record ⟨"q", 3, 0, 3, '+', "t", 3, 0, 3, "3="⟩ (.ok ['A', 'A', 'A'])
          (.ok ['T', 'T', 'T']) "omit").2
        = .error (.validation ⟨some ⟨"CIGAR mismatch at operation 0: query char \x27A\x27 at pos 0 vs target char \x27T\x27 at pos 0", 3⟩, none, none⟩) :=
  ⟨rfl, rfl, rfl⟩

/-- C2 (amended): in every mode other than "report", a record with at least
one finding writes nothing to the sink and fails with a single structured
value carrying the per-type merged error map (first message and occurrence
count per error type), not a per-position list. -/
theorem omit_mode_fails_without_writing (record : PafRecord) (qraw traw : List Char)
    (mode : String) (errs : ErrMap)
    (hmode : mode ≠ "report") (hval : validate_errors record qraw traw = .ok errs)
    (hne : errs.isEmpty = false) :
    validate_record record (.ok qraw) (.ok traw) mode = ([], .error (.validation errs)) := by
  rw [validate_record_ok record qraw traw mode errs hval]
  rw [if_neg (by simp [hne]), if_neg hmode]

/-- Witness for C2's amended statement in "omit" mode on the "3=" AAA/TTT
record. -/
theorem omit_mode_fails_without_writing_w :
    validate_record ⟨"q", 3, 0, 3, '+', "t", 3, 0, 3, "3="⟩ (.ok ['A', 'A', 'A'])
        (.ok ['T', 'T', 'T']) "omit"
      = ([], .error (.validation ⟨some ⟨"CIGAR mismatch at operation 0: query char \x27A\x27 at pos 0 vs target char \x27T\x27 at pos 0", 3⟩, none, none⟩)) :=
  omit_mode_fails_without_writing ⟨"q", 3, 0, 3, '+', "t", 3, 0, 3, "3="⟩
    ['A', 'A', 'A'] ['T', 'T', 'T'] "omit"
    ⟨some ⟨"CIGAR mismatch at operation 0: query char \x27A\x27 at pos 0 vs target char \x27T\x27 at pos 0", 3⟩, none, none⟩
    (by decide) rfl rfl

lemma validate_errors_eq (record : PafRecord) (qraw traw : List Char) (ops : List CigarOp)
    (hparse : parse_cigar record.cigar = .ok ops) :
    validate_errors record qraw traw
      = match walk record.query_start record.target_start (normalizeQuery record qraw)
          (traw.map Char.toUpper) ops 0 0 0 ErrMap.empty with
        | .error we => .error (.range we)
        | .ok (qIdx, tIdx, errs) =>
            .ok (lengthChecks (normalizeQuery record qraw) (traw.map Char.toUpper) qIdx tIdx errs) := by
  simp only [validate_errors]
  rw [hparse]

/-- C3: when a record's validation reaches the reporting stage with no
LengthMismatch entry, and the fetched windows have the declared lengths, the
parsed operations' query-consuming run lengths (Match, Mismatch, Insertion)
sum to the query window length and the target-consuming run lengths (Match,
Mismatch, Deletion) sum to the target window length. -/
theorem consumed_matches_window (record : PafRecord) (qraw traw : List Char)
    (ops : List CigarOp) (errs : ErrMap)
    (hq : qraw.length = record.query_end - record.query_start)
    (ht : traw.length = record.target_end - record.target_start)
    (hparse : parse_cigar record.cigar = .ok ops)
    (hval : validate_errors record qraw traw = .ok errs)
    (hnone : errs.lengthMismatch = none) :
    queryConsumed ops = record.query_end - record.query_start ∧
      targetConsumed ops = record.target_end - record.target_start := by
  rw [validate_errors_eq record qraw traw ops hparse] at hval
  cases hw : walk record.query_start record.target_start (normalizeQuery record qraw)
      (traw.map Char.toUpper) ops 0 0 0 ErrMap.empty with
  | error we =>
    rw [hw] at hval
    exact absurd hval (by simp)
  | ok res =>
    obtain ⟨q, t, e⟩ := res
    rw [hw] at hval
    simp only [Except.ok.injEq] at hval
    obtain ⟨hcur_q, hcur_t, _⟩ :=
      walk_ok record.query_start record.target_start (normalizeQuery record qraw)
        (traw.map Char.toUpper) ops 0 0 0 ErrMap.empty q t e hw
    rw [← hval] at hnone
    simp only [lengthChecks] at hnone
    obtain ⟨ht_eq, hnone2⟩ := targetLenCheck_none _ _ _ hnone
    obtain ⟨hq_eq, _⟩ := queryLenCheck_none _ _ _ hnone2
    have hqlen : (normalizeQuery record qraw).length = record.query_end - record.query_start := by
      rw [normalizeQuery_length]; exact hq
    have htlen : (traw.map Char.toUpper).length = record.target_end - record.target_start := by
      rw [List.length_map]; exact ht
    constructor
    · omega
    · omega

/-- Witness for C3 on a clean record ("2=", AC vs AC, windows [0,2)). -/
theorem consumed_matches_window_w :
    queryConsumed [CigarOp.Match 2] = 2 ∧ targetConsumed [CigarOp.Match 2] = 2 :=
  consumed_matches_window ⟨"q", 2, 0, 2, '+', "t", 2, 0, 2, "2="⟩ ['A', 'C'] ['A', 'C']
    [CigarOp.Match 2] ErrMap.empty rfl rfl rfl rfl rfl
